import Mathlib

/-!
Verification of the spocker container runtime specification against its Go
source.  The Go functions relevant to the claims are shallowly embedded as
Lean functions.  External effects (file system, kernel syscalls, random
numbers, ARP probes, child processes) are represented by explicit oracle
parameters and by event traces, following the source's own handler
indirection (`FileHandler`, `NetworkHandler`).  Machine integers are modelled
as `Nat`/`Int` with explicit wrap-arounds where Go semantics demand it.
-/

/-! ## Path model: `path/filepath` (unix) as used by the source

`filepath.Join` and `filepath.Abs` are modelled byte-for-byte after the Go
standard library's lexical cleaning algorithm (`filepath.Clean`).
-/

/-- Split a string at every '/' character, like `strings.Split(s, "/")`. -/
def splitSlashAux : List Char → List Char → List String
  | [], acc => [String.mk acc.reverse]
  | c :: rest, acc =>
    if c = '/' then String.mk acc.reverse :: splitSlashAux rest []
    else splitSlashAux rest (c :: acc)

def splitOnSlash (s : String) : List String :=
  splitSlashAux s.data []

/-- Join a list of components with '/' separators. -/
def joinWithSlash : List String → String
  | [] => ""
  | [x] => x
  | x :: xs => x ++ "/" ++ joinWithSlash xs

def startsWithSlash (s : String) : Bool :=
  match s.data with
  | '/' :: _ => true
  | _ => false

/-- One step of `filepath.Clean`'s element processing: the reduced path so far
is kept as a reversed stack of components. -/
def cleanStep (rooted : Bool) (st : List String) (e : String) : List String :=
  if e = "" ∨ e = "." then st
  else if e = ".." then
    match st with
    | [] => if rooted then [] else [".."]
    | t :: rest => if t = ".." then ".." :: t :: rest else rest
  else e :: st

/-- `filepath.Clean` for unix paths: lexically remove `.`, empty and `..`
components (a `..` consumes the preceding component; at the root it is
dropped). -/
def goClean (p : String) : String :=
  if p = "" then "." else
  let rooted := startsWithSlash p
  let parts := (List.foldl (cleanStep rooted) [] (splitOnSlash p)).reverse
  if rooted then (if parts = [] then "/" else "/" ++ joinWithSlash parts)
  else (if parts = [] then "." else joinWithSlash parts)

/-- `filepath.Join(a, b)`: concatenate the non-empty elements with a slash and
clean the result; all-empty input yields the empty string. -/
def goJoin2 (a b : String) : String :=
  if a ≠ "" then goClean (a ++ "/" ++ b)
  else if b ≠ "" then goClean b
  else ""

/-- `filepath.Abs(p)` with the working directory passed explicitly: an
absolute path is cleaned, a relative one is joined to the working
directory. -/
def goAbs (cwd p : String) : String :=
  if startsWithSlash p then goClean p else goJoin2 cwd p

/-- `strings.HasPrefix(s, pre)` on the underlying character lists. -/
def listHasPre : List Char → List Char → Bool
  | [], _ => true
  | _ :: _, [] => false
  | a :: as, b :: bs => a = b && listHasPre as bs

def strHasPre (pre s : String) : Bool :=
  listHasPre pre.data s.data

/-! ## Cgroup parameter access (C1)

Embeds `ensureCgroupPathPrefix`, `GetCgroupParam` and `SetCgroupParam` from
`internal/container/cgroup/cgroup.go` (the `internal/container` draft copy is
identical up to the `FileHandler` indirection).  The `FileHandler` is an
oracle; the second component of the result is the trace of file operations
actually performed. -/

inductive CgErr where
  | invalidPath (p : String)
  | openFailed (p : String)
  | readFailed (p : String)
  | writeFailed (p : String)
  | mkdirFailed (p : String)
  | openTasksFailed (name : String)
  | writePidFailed (name : String)
  | mkdirSubsystemFailed (p : String)
  | openSubsystemFailed (filename : String)
  | writeSubsystemFailed (filename : String)
  deriving DecidableEq

inductive CgIOEv where
  | openEv (path : String)
  | readEv (path : String)
  | writeEv (path : String) (value : String)
  | closeEv (path : String)
  deriving DecidableEq

structure FileHandlerM where
  openOk : String → Bool
  readRes : String → Option String
  writeOk : String → Bool

/-- `ensureCgroupPathPrefix`: reject any path not starting with the literal
`/sys/fs/cgroup/`. -/
def ensureCgroupPathValid (cgroupPath : String) : Except CgErr Unit :=
  if strHasPre "/sys/fs/cgroup/" cgroupPath = false then
    Except.error (CgErr.invalidPath cgroupPath)
  else Except.ok ()

/-- ASCII approximation of `bytes.TrimSpace` (the cgroup values read are
ASCII decimals). -/
def isAsciiSpace (c : Char) : Bool :=
  c = ' ' ∨ c = '\t' ∨ c = '\n' ∨ c = '\x0b' ∨ c = '\x0c' ∨ c = '\r'

def goTrimSpace (s : String) : String :=
  String.mk (((s.data.dropWhile isAsciiSpace).reverse.dropWhile isAsciiSpace).reverse)

/-- `SetCgroupParam(cgroupPath, param, value)`: prefix check, then open the
parameter file write-only+truncate, write the value, close. -/
def SetCgroupParam (cgroupPath param value : String) (fh : FileHandlerM) :
    Except CgErr Unit × List CgIOEv :=
  match ensureCgroupPathValid cgroupPath with
  | Except.error e => (Except.error e, [])
  | Except.ok _ =>
    let paramFile := goJoin2 cgroupPath param
    if fh.openOk paramFile = false then
      (Except.error (CgErr.openFailed paramFile), [CgIOEv.openEv paramFile])
    else if fh.writeOk paramFile = false then
      (Except.error (CgErr.writeFailed paramFile),
        [CgIOEv.openEv paramFile, CgIOEv.writeEv paramFile value, CgIOEv.closeEv paramFile])
    else
      (Except.ok (),
        [CgIOEv.openEv paramFile, CgIOEv.writeEv paramFile value, CgIOEv.closeEv paramFile])

/-- `GetCgroupParam(cgroupPath, param)`: prefix check, then read the
parameter file and trim surrounding whitespace. -/
def GetCgroupParam (cgroupPath param : String) (fh : FileHandlerM) :
    Except CgErr String × List CgIOEv :=
  match ensureCgroupPathValid cgroupPath with
  | Except.error e => (Except.error e, [])
  | Except.ok _ =>
    let filePath := goJoin2 cgroupPath param
    match fh.readRes filePath with
    | none => (Except.error (CgErr.readFailed param), [CgIOEv.readEv filePath])
    | some v => (Except.ok (goTrimSpace v), [CgIOEv.readEv filePath])

/-- C1: a path without the `/sys/fs/cgroup/` literal as a prefix makes both
`SetCgroupParam` and `GetCgroupParam` fail with the invalid-path error and
perform no file operation at all. -/
theorem cgroup_param_rejects_outside_paths
    (p param value : String) (fh : FileHandlerM)
    (h : strHasPre "/sys/fs/cgroup/" p = false) :
    SetCgroupParam p param value fh = (Except.error (CgErr.invalidPath p), []) ∧
    GetCgroupParam p param fh = (Except.error (CgErr.invalidPath p), []) := by
  constructor
  · simp [SetCgroupParam, ensureCgroupPathValid, h]
  · simp [GetCgroupParam, ensureCgroupPathValid, h]

/-- Witness for C1: the spec's own scenario
`set_param("/etc/passwd", "owner", "0:0")` is rejected without any I/O. -/
theorem cgroup_param_rejects_outside_paths_witness :
    strHasPre "/sys/fs/cgroup/" "/etc/passwd" = false ∧
    (SetCgroupParam "/etc/passwd" "owner" "0:0"
        ⟨fun _ => true, fun _ => some "", fun _ => true⟩ =
      (Except.error (CgErr.invalidPath "/etc/passwd"), []) ∧
     GetCgroupParam "/etc/passwd" "owner"
        ⟨fun _ => true, fun _ => some "", fun _ => true⟩ =
      (Except.error (CgErr.invalidPath "/etc/passwd"), [])) :=
  ⟨by decide,
   cgroup_param_rejects_outside_paths "/etc/passwd" "owner" "0:0"
     ⟨fun _ => true, fun _ => some "", fun _ => true⟩ (by decide)⟩

/-! ## Filesystem manager (C2, C6)

Embeds package `filesystem` (duplicated as a `container` draft):
`GetAbsolutePath`, `Mount` and `CopyFile`.  The on-disk state is a finite
map from absolute paths to nodes; OS-level failures that the map cannot
express (permissions, missing parent directories) are absorbed by the
`FsEnvM` oracle. -/

inductive FsErr where
  | openSrcFailed (p : String)
  | statSrcFailed (p : String)
  | srcIsDir (p : String)
  | createDstFailed (p : String)
  | dstIsDir (p : String)
  | copyFailed (src dst : String)
  | mountFailed (target : String)
  deriving DecidableEq

inductive FsNode where
  | fileNode (content : List Nat)
  | dirNode
  deriving DecidableEq

def FsMap := List (String × FsNode)

def fsLookup : List (String × FsNode) → String → Option FsNode
  | [], _ => none
  | (p, n) :: rest, q => if p = q then some n else fsLookup rest q

def fsSet : List (String × FsNode) → String → FsNode → List (String × FsNode)
  | [], q, m => [(q, m)]
  | (p, n) :: rest, q, m => if p = q then (p, m) :: rest else (p, n) :: fsSet rest q m

structure FsEnvM where
  openOk : String → Bool
  createOk : String → Bool

inductive FsSyscall where
  | mountSys (source target fstype : String) (flags : Nat)
  | unmountSys (target : String)
  deriving DecidableEq

/-- `Filesystem.GetAbsolutePath`: `filepath.Abs(filepath.Join(fs.Root, path))`.
`filepath.Abs` can fail only when it must consult the working directory and
`Getwd` fails; the working directory is passed explicitly here, so the
embedding is total.  There is no containment check against the root. -/
def GetAbsolutePath (root path cwd : String) : Except FsErr String :=
  Except.ok (goAbs cwd (goJoin2 root path))

structure MountM where
  source : String
  target : String
  fstype : String
  flags : Nat

/-- `Filesystem.Mount`: one `syscall.Mount` on `filepath.Join(fs.Root,
mount.Target)`; the trace records the syscall actually issued. -/
def fsMount (root : String) (m : MountM) (mountOk : Bool) :
    Except FsErr Unit × List FsSyscall :=
  let tgt := goJoin2 root m.target
  if mountOk = false then
    (Except.error (FsErr.mountFailed m.target), [FsSyscall.mountSys m.source tgt m.fstype m.flags])
  else (Except.ok (), [FsSyscall.mountSys m.source tgt m.fstype m.flags])

/-- `Filesystem.CopyFile` (package `filesystem`): open the source, reject
directories, `os.Create` the destination (truncating an existing file),
then stream the source's current bytes into it. -/
def CopyFile (root : String) (env : FsEnvM) (st : List (String × FsNode))
    (src dst : String) : Except FsErr Unit × List (String × FsNode) :=
  let srcPath := goJoin2 root src
  let dstPath := goJoin2 root dst
  match fsLookup st srcPath with
  | none => (Except.error (FsErr.openSrcFailed src), st)
  | some srcNode =>
    if env.openOk srcPath = false then (Except.error (FsErr.openSrcFailed src), st)
    else
      match srcNode with
      | FsNode.dirNode => (Except.error (FsErr.srcIsDir src), st)
      | FsNode.fileNode _ =>
        match fsLookup st dstPath with
        | some FsNode.dirNode => (Except.error (FsErr.createDstFailed dst), st)
        | _ =>
          if env.createOk dstPath = false then (Except.error (FsErr.createDstFailed dst), st)
          else
            -- os.Create truncates the destination before any byte is copied
            let st1 := fsSet st dstPath (FsNode.fileNode [])
            -- io.Copy reads the source file's bytes as they are now
            let bs := match fsLookup st1 srcPath with
                      | some (FsNode.fileNode cs) => cs
                      | _ => []
            (Except.ok (), fsSet st1 dstPath (FsNode.fileNode bs))

def fsEnvAllOk : FsEnvM := ⟨fun _ => true, fun _ => true⟩

/-- C2, counterexample: a relative path whose `..` components escape the root
is joined, lexically normalized to a path outside the root, and returned with
no error; `Mount` likewise issues the mount syscall on the escaped path. -/
theorem fs_escape_not_rejected :
    GetAbsolutePath "/tmp/root" "../../etc/passwd" "/" = Except.ok "/etc/passwd" ∧
    strHasPre "/tmp/root" "/etc/passwd" = false ∧
    (fsMount "/tmp/root" ⟨"/dev/sda1", "../../etc", "ext4", 0⟩ true).2 =
      [FsSyscall.mountSys "/dev/sda1" "/etc" "ext4" 0] := by
  refine ⟨?_, by decide, ?_⟩ <;> rfl

/-- C2, amended: the filesystem operations never reject any relative path;
`GetAbsolutePath` always succeeds with the unchecked `Join`/`Abs` result
(it has no error case at all) and `Mount` always issues its syscall on the
joined target, with no containment check against the root. -/
theorem fs_paths_never_rejected (root rel cwd : String) (m : MountM) (mountOk : Bool) :
    GetAbsolutePath root rel cwd = Except.ok (goAbs cwd (goJoin2 root rel)) ∧
    (fsMount root m mountOk).2 =
      [FsSyscall.mountSys m.source (goJoin2 root m.target) m.fstype m.flags] := by
  refine ⟨rfl, ?_⟩
  unfold fsMount
  cases mountOk <;> simp

/-- C6, counterexample: when source and destination resolve to the same file,
`CopyFile` still succeeds, but the create step truncates the shared file
before the copy, so reading it afterwards does not yield the bytes the
source held at the time of the call. -/
theorem copyFile_same_file_loses_bytes :
    (CopyFile "/r" fsEnvAllOk [("/r/f", FsNode.fileNode [104, 105])] "f" "f").1 =
      Except.ok () ∧
    fsLookup [("/r/f", FsNode.fileNode [104, 105])] (goJoin2 "/r" "f") =
      some (FsNode.fileNode [104, 105]) ∧
    fsLookup (CopyFile "/r" fsEnvAllOk [("/r/f", FsNode.fileNode [104, 105])] "f" "f").2
        (goJoin2 "/r" "f") = some (FsNode.fileNode []) := by
  refine ⟨rfl, rfl, rfl⟩

theorem fsLookup_fsSet_eq (st : List (String × FsNode)) (p : String) (n : FsNode) :
    fsLookup (fsSet st p n) p = some n := by
  induction st with
  | nil => simp [fsSet, fsLookup]
  | cons hd tl ih =>
    obtain ⟨q, m⟩ := hd
    by_cases h : q = p <;> simp [fsSet, fsLookup, h, ih]

theorem fsLookup_fsSet_ne (st : List (String × FsNode)) (p q : String) (n : FsNode)
    (h : p ≠ q) : fsLookup (fsSet st p n) q = fsLookup st q := by
  induction st with
  | nil => simp [fsSet, fsLookup, h]
  | cons hd tl ih =>
    obtain ⟨r, m⟩ := hd
    by_cases hr : r = p
    · subst hr
      simp [fsSet, fsLookup, h]
    · simp [fsSet, fsLookup, hr, ih]

/-- C6, amended: whenever `CopyFile` succeeds and the two joined paths are
distinct, the destination afterwards holds exactly the bytes the source held
at the time of the call, and the source is unchanged. -/
theorem copyFile_roundtrip_distinct (root src dst : String) (env : FsEnvM)
    (st st2 : List (String × FsNode))
    (hok : CopyFile root env st src dst = (Except.ok (), st2))
    (hne : goJoin2 root src ≠ goJoin2 root dst) :
    ∃ bs, fsLookup st (goJoin2 root src) = some (FsNode.fileNode bs) ∧
      fsLookup st2 (goJoin2 root dst) = some (FsNode.fileNode bs) ∧
      fsLookup st2 (goJoin2 root src) = some (FsNode.fileNode bs) := by
  unfold CopyFile at hok
  cases hsrc : fsLookup st (goJoin2 root src) with
  | none => simp [hsrc] at hok
  | some srcNode =>
    simp only [hsrc] at hok
    by_cases hopen : env.openOk (goJoin2 root src) = false
    · simp [hopen] at hok
    · simp only [hopen, if_false] at hok
      cases srcNode with
      | dirNode => simp at hok
      | fileNode cs =>
        refine ⟨cs, rfl, ?_⟩
        have hinner :
            fsLookup (fsSet st (goJoin2 root dst) (FsNode.fileNode []))
              (goJoin2 root src) = some (FsNode.fileNode cs) := by
          rw [fsLookup_fsSet_ne _ _ _ _ (Ne.symm hne), hsrc]
        cases hdst : fsLookup st (goJoin2 root dst) with
        | none =>
          simp only [hdst] at hok
          by_cases hcr : env.createOk (goJoin2 root dst) = false
          · simp [hcr] at hok
          · simp only [hcr, if_false, hinner] at hok
            injection hok with h1 h2
            subst h2
            constructor
            · rw [fsLookup_fsSet_eq]
            · rw [fsLookup_fsSet_ne _ _ _ _ (Ne.symm hne), hinner]
        | some dnode =>
          cases dnode with
          | dirNode => simp [hdst] at hok
          | fileNode ds =>
            simp only [hdst] at hok
            by_cases hcr : env.createOk (goJoin2 root dst) = false
            · simp [hcr] at hok
            · simp only [hcr, if_false, hinner] at hok
              injection hok with h1 h2
              subst h2
              constructor
              · rw [fsLookup_fsSet_eq]
              · rw [fsLookup_fsSet_ne _ _ _ _ (Ne.symm hne), hinner]

/-- Witness for the amended C6 theorem: copying `a` to a distinct `b`
preserves the source bytes in the destination. -/
theorem copyFile_roundtrip_distinct_witness :
    ∃ bs, fsLookup [("/r/a", FsNode.fileNode [1, 2, 3])] (goJoin2 "/r" "a") =
        some (FsNode.fileNode bs) ∧
      fsLookup (CopyFile "/r" fsEnvAllOk [("/r/a", FsNode.fileNode [1, 2, 3])] "a" "b").2
        (goJoin2 "/r" "b") = some (FsNode.fileNode bs) ∧
      fsLookup (CopyFile "/r" fsEnvAllOk [("/r/a", FsNode.fileNode [1, 2, 3])] "a" "b").2
        (goJoin2 "/r" "a") = some (FsNode.fileNode bs) :=
  copyFile_roundtrip_distinct "/r" "a" "b" fsEnvAllOk
    [("/r/a", FsNode.fileNode [1, 2, 3])]
    (CopyFile "/r" fsEnvAllOk [("/r/a", FsNode.fileNode [1, 2, 3])] "a" "b").2
    rfl (by decide)

/-! ## File-descriptor handles (C7)

The open-descriptor state of the process: a counter of allocated descriptors
and the set of currently open ones.  `os.File.Close` on an already-closed
file returns an error (`os.ErrClosed`), which `hClose` mirrors. -/

structure HState where
  nextFd : Nat
  openFds : List Nat
  deriving DecidableEq

inductive FileCloseErr where
  | alreadyClosed
  deriving DecidableEq

def hOpen (h : HState) : Nat × HState :=
  (h.nextFd, ⟨h.nextFd + 1, h.nextFd :: h.openFds⟩)

def hClose (fd : Nat) (h : HState) : Except FileCloseErr Unit × HState :=
  if fd ∈ h.openFds then (Except.ok (), ⟨h.nextFd, h.openFds.erase fd⟩)
  else (Except.error FileCloseErr.alreadyClosed, h)

/-! ### `NewCgroup` (package `cgroup`, cgroup.go lines 128-174)

Oracles stand for the `FileHandler` operations; the handle state tracks the
descriptor of the `tasks` file.  The crucial source detail is the
`defer tasksFile.Close()` registered inside the constructor: it runs on
*every* return from `NewCgroup`, including the successful one, so the
returned `Cgroup.File` descriptor is closed by the time construction
returns. -/

structure ResourcesM where
  memoryLimit : Int
  cpuShares : Int
  blkioWeight : Int
  deriving DecidableEq

structure CgroupSpecM where
  name : String
  resources : ResourcesM
  cgroupRoot : String
  deriving DecidableEq

structure CgroupM where
  name : String
  fd : Nat
  cgroupRoot : String
  deriving DecidableEq

structure CgOracles where
  mkdirOk : String → Bool
  openOk : String → Bool
  writeOk : String → Bool

inductive SubsystemM where
  | cpu
  | memory
  | blkio
  deriving DecidableEq

def subsystemName : SubsystemM → String
  | SubsystemM.cpu => "cpu"
  | SubsystemM.memory => "memory"
  | SubsystemM.blkio => "blkio"

def subsystemControlFile : SubsystemM → String
  | SubsystemM.cpu => "cpu.shares"
  | SubsystemM.memory => "memory.limit_in_bytes"
  | SubsystemM.blkio => "blkio.weight"

def subsystemControlValue : SubsystemM → ResourcesM → Int
  | SubsystemM.cpu, r => r.cpuShares
  | SubsystemM.memory, r => r.memoryLimit
  | SubsystemM.blkio, r => r.blkioWeight

/-- `setSubsystemValue`: open the control file write-only, write the decimal
value, close (its own deferred close is balanced inside the call). -/
def setSubsystemValue (orc : CgOracles) (hs : HState) (subsystemPath filename : String)
    (value : Int) : Except CgErr Unit × HState :=
  let p := goJoin2 subsystemPath filename
  if orc.openOk p = false then (Except.error (CgErr.openSubsystemFailed filename), hs)
  else
    let res := hOpen hs
    if orc.writeOk p = false then
      (Except.error (CgErr.writeSubsystemFailed filename), (hClose res.1 res.2).2)
    else (Except.ok (), (hClose res.1 res.2).2)

def applySettings (orc : CgOracles) (hs : HState) (s : SubsystemM)
    (subsystemPath : String) (r : ResourcesM) : Except CgErr Unit × HState :=
  setSubsystemValue orc hs subsystemPath (subsystemControlFile s) (subsystemControlValue s r)

/-- The per-subsystem loop of `NewCgroup`: ensure the subsystem directory
exists and apply the configured setting. -/
def newCgroupLoop (orc : CgOracles) (cgroupRoot name : String) (r : ResourcesM) :
    HState → List SubsystemM → Except CgErr Unit × HState
  | hs, [] => (Except.ok (), hs)
  | hs, s :: rest =>
    let subsystemPath := goJoin2 (goJoin2 cgroupRoot (subsystemName s)) name
    if orc.mkdirOk subsystemPath = false then
      (Except.error (CgErr.mkdirSubsystemFailed subsystemPath), hs)
    else
      match applySettings orc hs s subsystemPath r with
      | (Except.error e, hs1) => (Except.error e, hs1)
      | (Except.ok _, hs1) => newCgroupLoop orc cgroupRoot name r hs1 rest

/-- The subsystem list wired by `Run`/`MustLimitMemory`: cpu, memory, blkio. -/
def defaultSubsystems : List SubsystemM :=
  [SubsystemM.cpu, SubsystemM.memory, SubsystemM.blkio]

/-- `NewCgroup(spec, subsystems, fileHandler)`. -/
def NewCgroup (spec : CgroupSpecM) (orc : CgOracles) (hs : HState) :
    Except CgErr CgroupM × HState :=
  let cgroupRoot := if spec.cgroupRoot = "" then "/sys/fs/cgroup" else spec.cgroupRoot
  let cgroupPath := goJoin2 cgroupRoot spec.name
  if orc.mkdirOk cgroupPath = false then (Except.error (CgErr.mkdirFailed cgroupPath), hs)
  else
    let tasksFilePath := goJoin2 cgroupPath "tasks"
    if orc.openOk tasksFilePath = false then
      (Except.error (CgErr.openTasksFailed spec.name), hs)
    else
      let res := hOpen hs
      -- defer tasksFile.Close() is registered here and runs on every return
      if orc.writeOk tasksFilePath = false then
        (Except.error (CgErr.writePidFailed spec.name), (hClose res.1 res.2).2)
      else
        match newCgroupLoop orc cgroupRoot spec.name spec.resources res.2 defaultSubsystems with
        | (Except.error e, hs2) => (Except.error e, (hClose res.1 hs2).2)
        | (Except.ok _, hs2) =>
          (Except.ok ⟨spec.name, res.1, cgroupRoot⟩, (hClose res.1 hs2).2)

/-- `Cgroup.Close`: close the stored tasks-file descriptor. -/
def CgroupClose (cg : CgroupM) (hs : HState) : Except FileCloseErr Unit × HState :=
  hClose cg.fd hs

/-! ### `NewNamespace` (package `namespace`, namespace.go lines 203-236)

Same constructor-`defer` slip: `file := os.NewFile(r.Fd())` wraps the pipe's
read descriptor and `defer file.Close()` closes it as the constructor
returns.  The `createCommand` helper is not under `src/`; its `container`
sibling guards an allow-list before building the command, which the
`allowed` oracle reflects. -/

inductive NamespaceTypeM where
  | pidNs
  | utsNs
  | ipcNs
  | netNs
  | userNs
  | cgroupNs
  deriving DecidableEq

structure NamespaceSpecM where
  name : String
  type : NamespaceTypeM
  deriving DecidableEq

structure NamespaceM where
  name : String
  type : NamespaceTypeM
  fd : Nat
  deriving DecidableEq

inductive NsErr where
  | pipeFailed
  | cmdNotAllowed (name : String)
  | startFailed
  | runFailed (hostname : String)
  deriving DecidableEq

def NewNamespace (spec : NamespaceSpecM) (pipeOk startOk : Bool)
    (allowed : String → Bool) (hs : HState) : Except NsErr NamespaceM × HState :=
  if pipeOk = false then (Except.error NsErr.pipeFailed, hs)
  else
    let rres := hOpen hs
    let wres := hOpen rres.2
    if allowed "/proc/self/exe" = false then
      (Except.error (NsErr.cmdNotAllowed "/proc/self/exe"), wres.2)
    else if startOk = false then (Except.error NsErr.startFailed, wres.2)
    else
      -- file := os.NewFile(r.Fd(), "namespace"); defer file.Close()
      let ns : NamespaceM := ⟨spec.name, spec.type, rres.1⟩
      (Except.ok ns, (hClose rres.1 wres.2).2)

/-- `Namespace.Close`: close the stored namespace descriptor. -/
def NamespaceClose (ns : NamespaceM) (hs : HState) : Except FileCloseErr Unit × HState :=
  hClose ns.fd hs

def cgOraclesAllOk : CgOracles := ⟨fun _ => true, fun _ => true, fun _ => true⟩

def c7Spec : CgroupSpecM := ⟨"c1", ⟨100000000, 512, 100⟩, ""⟩

def c7NsSpec : NamespaceSpecM := ⟨"n1", NamespaceTypeM.pidNs⟩

/-- C7: both constructors close their descriptor via the constructor's own
`defer` before returning, so the descriptor of a successfully constructed
handle is already invalid when construction returns, and the *first* `Close`
call on the handle fails as a close of a closed file.  Evaluated on a
successful construction with every file operation succeeding. -/
theorem handle_descriptor_closed_at_construction :
    ((NewCgroup c7Spec cgOraclesAllOk ⟨0, []⟩).1 =
        Except.ok ⟨"c1", 0, "/sys/fs/cgroup"⟩) ∧
    ((NewCgroup c7Spec cgOraclesAllOk ⟨0, []⟩).2.openFds = []) ∧
    ((CgroupClose ⟨"c1", 0, "/sys/fs/cgroup"⟩ (NewCgroup c7Spec cgOraclesAllOk ⟨0, []⟩).2).1 =
        Except.error FileCloseErr.alreadyClosed) ∧
    ((NewNamespace c7NsSpec true true (fun _ => true) ⟨0, []⟩).1 =
        Except.ok ⟨"n1", NamespaceTypeM.pidNs, 0⟩) ∧
    ((NewNamespace c7NsSpec true true (fun _ => true) ⟨0, []⟩).2.openFds = [1]) ∧
    ((NamespaceClose ⟨"n1", NamespaceTypeM.pidNs, 0⟩
        (NewNamespace c7NsSpec true true (fun _ => true) ⟨0, []⟩).2).1 =
        Except.error FileCloseErr.alreadyClosed) := by
  refine ⟨rfl, rfl, rfl, rfl, rfl, rfl⟩

/-! ## `SetHostname` (package `namespace`, namespace.go lines 292-304) (C8)

The effect trace distinguishes spawning an external command from the
`sethostname` syscall.  `SetHostname` builds the command
`sudo hostnamectl set-hostname <hostname>` via `createCommand` and runs it;
it never invokes the syscall.  The draft `container.MustSetHostname` is the
only function that calls `syscall.Sethostname` directly. -/

inductive HostEffect where
  | spawnEv (name : String) (args : List String)
  | sethostnameEv (name : String)
  deriving DecidableEq

def SetHostname (hostname : String) (allowed : String → Bool) (runOk : Bool) :
    Except NsErr Unit × List HostEffect :=
  if allowed "sudo" = false then (Except.error (NsErr.cmdNotAllowed "sudo"), [])
  else if runOk = false then
    (Except.error (NsErr.runFailed hostname),
      [HostEffect.spawnEv "sudo" ["hostnamectl", "set-hostname", hostname]])
  else
    (Except.ok (), [HostEffect.spawnEv "sudo" ["hostnamectl", "set-hostname", hostname]])

/-- `container.MustSetHostname` (draft, unused by the launch path): the
direct syscall. -/
def MustSetHostname (hostname : String) : List HostEffect :=
  [HostEffect.sethostnameEv hostname]

/-- C8, counterexample: `SetHostname` shells out — with the command allowed
and succeeding its whole effect trace is one spawn of
`sudo hostnamectl set-hostname <h>` and no `sethostname` syscall. -/
theorem setHostname_shells_out :
    SetHostname "box" (fun _ => true) true =
      (Except.ok (), [HostEffect.spawnEv "sudo" ["hostnamectl", "set-hostname", "box"]]) ∧
    ((SetHostname "box" (fun _ => true) true).2.all
      (fun e => match e with | HostEffect.sethostnameEv _ => false | _ => true)) = true := by
  refine ⟨rfl, rfl⟩

/-- C8, amended: for every hostname and environment, `SetHostname` performs
no `sethostname` syscall; its only possible effect is spawning the external
`sudo hostnamectl set-hostname` command (nothing is spawned when command
creation is refused). -/
theorem setHostname_never_calls_sethostname (h : String) (allowed : String → Bool)
    (runOk : Bool) :
    ((SetHostname h allowed runOk).2.all
      (fun e => match e with | HostEffect.sethostnameEv _ => false | _ => true) = true) ∧
    (SetHostname h allowed runOk).2 =
      (if allowed "sudo" = true then
        [HostEffect.spawnEv "sudo" ["hostnamectl", "set-hostname", h]]
       else []) := by
  unfold SetHostname
  cases hA : allowed "sudo" <;> cases runOk <;> simp

/-! ## The Runner `Run` (run.go lines 22-88) (C3)

The launch pipeline as an event trace.  Each acquisition either fails (the
scenario flag is `false`) or succeeds and registers its deferred release;
Go defers run in LIFO order on every return.  The filesystem handle owns no
descriptor and has no release operation (run.go registers no defer for it);
the network release is the `DeleteNetwork` defer, the namespace and cgroup
releases their `Close` defers. -/

inductive RResource where
  | cgroupRes
  | namespaceRes
  | filesystemRes
  | networkRes
  deriving DecidableEq, BEq

inductive RunEvent where
  | acquire (r : RResource)
  | release (r : RResource)
  | setHostnameEv
  | startChildEv
  | waitChildEv
  deriving DecidableEq, BEq

structure RunScenario where
  cgroupOk : Bool
  nsOk : Bool
  fsOk : Bool
  netOk : Bool
  hostnameOk : Bool
  startOk : Bool

/-- The deferred releases that run once all four resources are acquired. -/
def allReleases : List RunEvent :=
  [RunEvent.release RResource.networkRes, RunEvent.release RResource.namespaceRes,
   RunEvent.release RResource.cgroupRes]

/-- The event trace of `container.Run` under a given scenario.  The child's
wait outcome changes only the returned error, not the trace. -/
def runTrace (s : RunScenario) : List RunEvent :=
  if s.cgroupOk = false then [] else
  RunEvent.acquire RResource.cgroupRes ::
  (if s.nsOk = false then [RunEvent.release RResource.cgroupRes] else
  RunEvent.acquire RResource.namespaceRes ::
  (if s.fsOk = false then
    [RunEvent.release RResource.namespaceRes, RunEvent.release RResource.cgroupRes] else
  RunEvent.acquire RResource.filesystemRes ::
  (if s.netOk = false then
    [RunEvent.release RResource.namespaceRes, RunEvent.release RResource.cgroupRes] else
  RunEvent.acquire RResource.networkRes ::
  RunEvent.setHostnameEv ::
  (if s.hostnameOk = false then allReleases else
  RunEvent.startChildEv ::
  (if s.startOk = false then allReleases else
  RunEvent.waitChildEv :: allReleases)))))

def acquiredRes (t : List RunEvent) : List RResource :=
  t.filterMap (fun e => match e with | RunEvent.acquire r => some r | _ => none)

def releasedRes (t : List RunEvent) : List RResource :=
  t.filterMap (fun e => match e with | RunEvent.release r => some r | _ => none)

def nonReleaseEvs (t : List RunEvent) : List RunEvent :=
  t.filter (fun e => match e with | RunEvent.release _ => false | _ => true)

/-- C3: in every scenario, the non-release events of `Run` form a prefix of
cgroup-acquire, namespace-acquire, filesystem-acquire, network-acquire,
hostname, child-start, child-wait (so acquisition and the hostname/child
steps happen in exactly that order), and the released resources are exactly
the acquired ones in strict reverse order — the filesystem handle excepted,
whose destruction is implicit (it holds no descriptor and run.go registers
no release for it). -/
theorem run_acquire_release_order (a b c d e f : Bool) :
    (nonReleaseEvs (runTrace ⟨a, b, c, d, e, f⟩)).isPrefixOf
      [RunEvent.acquire RResource.cgroupRes, RunEvent.acquire RResource.namespaceRes,
       RunEvent.acquire RResource.filesystemRes, RunEvent.acquire RResource.networkRes,
       RunEvent.setHostnameEv, RunEvent.startChildEv, RunEvent.waitChildEv] = true ∧
    releasedRes (runTrace ⟨a, b, c, d, e, f⟩) =
      ((acquiredRes (runTrace ⟨a, b, c, d, e, f⟩)).filter
        (fun r => r ≠ RResource.filesystemRes)).reverse := by
  cases a <;> cases b <;> cases c <;> cases d <;> cases e <;> cases f <;> decide

/-! ## Network address model (C4, C5, C10)

`net.IP`, `net.IPMask` and `net.IPNet` are byte sequences; `math/big`
integers are `Nat`.  `GetAvailableIP` (network.go lines 137-160) converts the
masked network base through `To16`/`big.Int.SetBytes`, adds a random offset
drawn below `1 << (bits-ones)` (a Go `int` shift, with 64-bit wrap-around),
and converts back through `big.Int.Bytes`, which *strips leading zero
bytes*.  The ARP probe `IsIPInUse` is embedded further below; only its
genuinely environmental steps are oracles, its validation logic is
concrete. -/

def v4InV6Pre : List Nat := [0, 0, 0, 0, 0, 0, 0, 0, 0, 0, 255, 255]

/-- `net.IP.To16`: widen a 4-byte address to its IPv4-in-IPv6 form; other
lengths than 4 and 16 give nil (modelled as `[]`). -/
def ipTo16 (ip : List Nat) : List Nat :=
  if ip.length = 4 then v4InV6Pre ++ ip
  else if ip.length = 16 then ip
  else []

/-- `net.IP.To4`: a 16-byte address is narrowed only when it carries the
IPv4-in-IPv6 prefix; otherwise nil (`[]`). -/
def ipTo4 (ip : List Nat) : List Nat :=
  if ip.length = 4 then ip
  else if ip.length = 16 ∧ ip.take 12 = v4InV6Pre then ip.drop 12
  else []

/-- `net.IP.Mask`: byte-wise AND after aligning a 16-byte mask with a 4-byte
address (and vice versa); mismatched lengths give nil. -/
def ipMaskApply (ip mask : List Nat) : List Nat :=
  let mask1 :=
    if mask.length = 16 ∧ ip.length = 4 ∧ (mask.take 12).all (fun b => b = 255) then
      mask.drop 12
    else mask
  let ip1 :=
    if mask1.length = 4 ∧ ip.length = 16 ∧ ip.take 12 = v4InV6Pre then ip.drop 12
    else ip
  if ip1.length ≠ mask1.length then []
  else List.zipWith (fun a b => Nat.land a b) ip1 mask1

/-- Number of leading one bits of a canonical mask byte (`none` when the byte
is not of the form 1…10…0), as in Go's `simpleMaskLength`. -/
def onesPatternVal (v : Nat) : Option Nat :=
  if v = 0 then some 0
  else if v = 128 then some 1
  else if v = 192 then some 2
  else if v = 224 then some 3
  else if v = 240 then some 4
  else if v = 248 then some 5
  else if v = 252 then some 6
  else if v = 254 then some 7
  else if v = 255 then some 8
  else none

/-- `simpleMaskLength`: leading 0xff bytes count 8 bits each; the first
non-0xff byte must be a leading-ones pattern and everything after it zero. -/
def simpleMaskLength : List Nat → Option Nat
  | [] => some 0
  | v :: rest =>
    if v = 255 then (simpleMaskLength rest).map (fun n => n + 8)
    else
      match onesPatternVal v with
      | none => none
      | some k => if rest.all (fun b => b = 0) then some k else none

/-- `net.IPMask.Size`: `(ones, bits)`, or `(0, 0)` for a non-canonical
mask. -/
def maskSize (mask : List Nat) : Nat × Nat :=
  match simpleMaskLength mask with
  | none => (0, 0)
  | some n => (n, 8 * mask.length)

/-- `big.Int.SetBytes`: big-endian bytes to integer. -/
def bytesToNat (bs : List Nat) : Nat :=
  List.foldl (fun a b => a * 256 + b) 0 bs

/-- `big.Int.Bytes`: minimal big-endian byte representation (zero gives the
empty slice) — this is where leading zero bytes are stripped.  Structural
recursion on a fuel bounded by the value itself (a number never has more
base-256 digits than its own magnitude). -/
def natToBytesAux : Nat → Nat → List Nat
  | 0, _ => []
  | _, 0 => []
  | fuel + 1, n + 1 => natToBytesAux fuel ((n + 1) / 256) ++ [(n + 1) % 256]

def natToBytes (n : Nat) : List Nat :=
  natToBytesAux n n

/-- Go's `1 << uint(k)` on a 64-bit `int`: shifts of 64 or more give `0`,
a shift of 63 gives the minimum integer. -/
def goShl1Int64 (k : Nat) : Int :=
  if k ≤ 62 then (2 : Int) ^ k
  else if k = 63 then -((2 : Int) ^ 63)
  else 0

inductive NetErr where
  | invalidConfig
  | alreadyExists
  | dhcpCreateFailed
  | dhcpServeFailed
  | assignFailed
  | exhausted
  | gatewayFailed
  | dnsFailed
  | randPanic
  deriving DecidableEq

structure IPNetM where
  ip : List Nat
  mask : List Nat
  deriving DecidableEq

/-- The probe loop of `GetAvailableIP`: up to `fuel` iterations; draw the
`i`-th random value below `space`, add it to the base integer, re-encode,
and return the first candidate the ARP probe reports free. -/
def gaiLoop (space base : Nat) (randoms : Nat → Nat) (inUse : List Nat → Bool) :
    Nat → Nat → Except NetErr (List Nat)
  | 0, _ => Except.error NetErr.exhausted
  | fuel + 1, i =>
    let r := randoms i % space
    let ip := natToBytes (r + base)
    if inUse ip = true then gaiLoop space base randoms inUse fuel (i + 1)
    else Except.ok ip

/-- `GetAvailableIP(ipNet)`: mask the network base, compute the host-space
size `1 << (bits-ones)` as a Go int, and probe up to 10 random offsets.
`crypto/rand.Int` panics when its bound is not positive (the case for 64 or
more host bits), modelled as the `randPanic` error. -/
def GetAvailableIP (ipNet : IPNetM) (randoms : Nat → Nat) (inUse : List Nat → Bool) :
    Except NetErr (List Nat) :=
  let ipRange := ipMaskApply ipNet.ip ipNet.mask
  let sz := maskSize ipNet.mask
  let space := goShl1Int64 (sz.2 - sz.1)
  if space ≤ 0 then Except.error NetErr.randPanic
  else gaiLoop space.toNat (bytesToNat (ipTo16 ipRange)) randoms inUse 10 0

/-- `net.IPNet`'s `networkNumberAndMask`. -/
def networkNumberAndMask (n : IPNetM) : List Nat × List Nat :=
  let ip0 := ipTo4 n.ip
  if ip0 = [] ∧ n.ip.length ≠ 16 then ([], [])
  else
    let ip := if ip0 = [] then n.ip else ip0
    if n.mask.length = 4 then (if ip.length ≠ 4 then ([], []) else (ip, n.mask))
    else if n.mask.length = 16 then
      (if ip.length = 4 then (ip, n.mask.drop 12) else (ip, n.mask))
    else ([], [])

/-- `net.IPNet.Contains`. -/
def ipNetContains (n : IPNetM) (cand : List Nat) : Bool :=
  let nm := networkNumberAndMask n
  let c0 := ipTo4 cand
  let c := if c0 = [] then cand else c0
  if c.length ≠ nm.1.length then false
  else
    (List.zip (List.zip nm.1 nm.2) c).all
      (fun p => Nat.land p.1.1 p.1.2 = Nat.land p.2 p.1.2)

def cidr24 : IPNetM := ⟨[192, 168, 0, 0], [255, 255, 255, 0]⟩

/-! ### The ARP probe `IsIPInUse` (network.go lines 163-222)

Interface lookup, source-address discovery, ARP dial, packet construction,
send, and a one-second wait for a matching reply.  The genuinely
environmental steps are oracles: `ifaceOk` (`net.InterfaceByIndex(1)`),
`srcOk` (whether `getSourceIPAndHardwareAddr` found an IPv4 address and a
MAC on the interface), `dialOk` (`arp.Dial`), `writeOk` (`client.WriteTo`)
and `replyInUse` (whether an ARP reply matching the candidate arrives within
the timeout; absence means free).  The validation inside `arp.NewPacket` is
concrete: the pinned `mdlayher/arp` revision rejects any source or target
`netip.Addr` that is not IPv4 (after unmapping), and `netIPToNetIPAddr`
yields the invalid zero `Addr` for a byte string that is neither 4 nor 16
bytes long — so the target passes validation exactly when `ipTo4 ip ≠ []`
(4 bytes, or 16 bytes in IPv4-mapped form).  Every error path of the source
returns `true` (in use). -/

structure ArpEnv where
  ifaceOk : Bool
  srcOk : Bool
  dialOk : Bool
  writeOk : Bool
  replyInUse : List Nat → Bool

def IsIPInUse (env : ArpEnv) (ip : List Nat) : Bool :=
  if env.ifaceOk = false then true
  else if env.dialOk = false then true
  else if env.srcOk = false then true
  else if ipTo4 ip = [] then true
  else if env.writeOk = false then true
  else env.replyInUse ip

/-- `GetAvailableIP` as the program runs it: the probe is `IsIPInUse`. -/
def GetAvailableIPArp (ipNet : IPNetM) (randoms : Nat → Nat) (env : ArpEnv) :
    Except NetErr (List Nat) :=
  GetAvailableIP ipNet randoms (IsIPInUse env)

def arpEnvAllOk : ArpEnv := ⟨true, true, true, true, fun _ => false⟩

theorem isIPInUse_invalid (env : ArpEnv) (ip : List Nat) (h : ipTo4 ip = []) :
    IsIPInUse env ip = true := by
  simp [IsIPInUse, h]

theorem natToBytesAux_zero : ∀ fuel, natToBytesAux fuel 0 = [] := by
  intro fuel
  cases fuel <;> rfl

theorem natToBytesAux_fuel_irrel : ∀ (n fuel1 fuel2 : Nat), n ≤ fuel1 → n ≤ fuel2 →
    natToBytesAux fuel1 n = natToBytesAux fuel2 n := by
  intro n
  induction n using Nat.strong_induction_on with
  | _ n ih =>
    intro fuel1 fuel2 h1 h2
    cases n with
    | zero => rw [natToBytesAux_zero, natToBytesAux_zero]
    | succ m =>
      cases fuel1 with
      | zero => omega
      | succ f1 =>
        cases fuel2 with
        | zero => omega
        | succ f2 =>
          show natToBytesAux f1 ((m + 1) / 256) ++ [(m + 1) % 256] =
               natToBytesAux f2 ((m + 1) / 256) ++ [(m + 1) % 256]
          have hd : (m + 1) / 256 < m + 1 := Nat.div_lt_self (Nat.succ_pos m) (by norm_num)
          rw [ih ((m + 1) / 256) hd f1 f2 (by omega) (by omega)]

theorem natToBytes_succ (n : Nat) (h : 0 < n) :
    natToBytes n = natToBytes (n / 256) ++ [n % 256] := by
  cases n with
  | zero => omega
  | succ m =>
    have hd : (m + 1) / 256 < m + 1 := Nat.div_lt_self (Nat.succ_pos m) (by norm_num)
    show natToBytesAux (m + 1) (m + 1) =
        natToBytesAux ((m + 1) / 256) ((m + 1) / 256) ++ [(m + 1) % 256]
    have he : natToBytesAux (m + 1) (m + 1) =
        natToBytesAux m ((m + 1) / 256) ++ [(m + 1) % 256] := rfl
    rw [he, natToBytesAux_fuel_irrel ((m + 1) / 256) m ((m + 1) / 256) (by omega) (le_refl _)]

/-- A value with exactly `k + 1` base-256 digits encodes to `k + 1` bytes. -/
theorem natToBytes_length : ∀ (k v : Nat), 256 ^ k ≤ v → v < 256 ^ (k + 1) →
    (natToBytes v).length = k + 1 := by
  intro k
  induction k with
  | zero =>
    intro v h1 h2
    rw [natToBytes_succ v (by simpa using h1)]
    rw [Nat.div_eq_of_lt (by simpa using h2)]
    simp [natToBytes, natToBytesAux]
  | succ k ih =>
    intro v h1 h2
    have hv : 0 < v := lt_of_lt_of_le (Nat.pos_pow_of_pos _ (by norm_num)) h1
    rw [natToBytes_succ v hv, List.length_append]
    have e1 : 256 ^ k ≤ v / 256 := by
      rw [Nat.le_div_iff_mul_le (by norm_num)]
      calc 256 ^ k * 256 = 256 ^ (k + 1) := by ring
      _ ≤ v := h1
    have e2 : v / 256 < 256 ^ (k + 1) := by
      rw [Nat.div_lt_iff_lt_mul (by norm_num)]
      calc v < 256 ^ (k + 2) := h2
      _ = 256 ^ (k + 1) * 256 := by ring
    rw [ih (v / 256) e1 e2]
    simp

/-- The stripped encoding of any value with 6 or 7 base-256 digits is
neither 4 nor 16 bytes long, so `To4` gives nil. -/
theorem ipTo4_natToBytes_sixseven (v : Nat) (h1 : 256 ^ 5 ≤ v) (h2 : v < 256 ^ 7) :
    ipTo4 (natToBytes v) = [] := by
  by_cases h6 : v < 256 ^ 6
  · have hl := natToBytes_length 5 v h1 h6
    simp [ipTo4, hl]
  · have hl := natToBytes_length 6 v (le_of_not_lt h6) h2
    simp [ipTo4, hl]

/-- The IPv4-mapped form of any four bytes has an integer value with exactly
six base-256 digits (the two `0xff` bytes dominate). -/
theorem bytesToNat_v4mapped_bounds (a b c d : Nat)
    (ha : a ≤ 255) (hb : b ≤ 255) (hc : c ≤ 255) (hd : d ≤ 255) :
    256 ^ 5 ≤ bytesToNat (ipTo16 [a, b, c, d]) ∧
      bytesToNat (ipTo16 [a, b, c, d]) < 256 ^ 6 := by
  have hval : bytesToNat (ipTo16 [a, b, c, d]) =
      ((((65535 * 256 + a) * 256 + b) * 256 + c) * 256 + d) := by
    norm_num [ipTo16, v4InV6Pre, bytesToNat, List.foldl]
  have h5 : (256 : Nat) ^ 5 = 1099511627776 := by norm_num
  have h6 : (256 : Nat) ^ 6 = 281474976710656 := by norm_num
  rw [hval, h5, h6]
  omega

theorem gaiLoop_all_busy (space base : Nat) (randoms : Nat → Nat)
    (inUse : List Nat → Bool)
    (h : ∀ i, inUse (natToBytes (randoms i % space + base)) = true) :
    ∀ fuel i, gaiLoop space base randoms inUse fuel i = Except.error NetErr.exhausted := by
  intro fuel
  induction fuel with
  | zero => intro i; rfl
  | succ n ih => intro i; simp [gaiLoop, h i, ih]

/-- On every IPv4 CIDR (4-byte address and mask, as `net.ParseCIDR`
produces), every candidate the loop draws is the stripped 6- or 7-digit
encoding of an IPv4-mapped value, which `arp.NewPacket` rejects, so
`IsIPInUse` deterministically reports it in use and all 10 probes miss. -/
theorem getAvailableIPArp_ipv4_exhausted (a b c d m1 m2 m3 m4 : Nat)
    (hm1 : m1 ≤ 255) (hm2 : m2 ≤ 255) (hm3 : m3 ≤ 255) (hm4 : m4 ≤ 255)
    (randoms : Nat → Nat) (env : ArpEnv) :
    GetAvailableIPArp ⟨[a, b, c, d], [m1, m2, m3, m4]⟩ randoms env =
      Except.error NetErr.exhausted := by
  have hmask : ipMaskApply [a, b, c, d] [m1, m2, m3, m4] =
      [Nat.land a m1, Nat.land b m2, Nat.land c m3, Nat.land d m4] := by
    simp [ipMaskApply]
  obtain ⟨hb1, hb2⟩ := bytesToNat_v4mapped_bounds (Nat.land a m1) (Nat.land b m2)
    (Nat.land c m3) (Nat.land d m4)
    (le_trans Nat.and_le_right hm1) (le_trans Nat.and_le_right hm2)
    (le_trans Nat.and_le_right hm3) (le_trans Nat.and_le_right hm4)
  simp only [GetAvailableIPArp, GetAvailableIP, hmask]
  rcases hsm : simpleMaskLength [m1, m2, m3, m4] with _ | n
  · have hms : maskSize [m1, m2, m3, m4] = (0, 0) := by simp [maskSize, hsm]
    rw [hms]
    norm_num [goShl1Int64]
    apply gaiLoop_all_busy
    intro i
    apply isIPInUse_invalid
    simp only [Nat.mod_one, Nat.zero_add]
    exact ipTo4_natToBytes_sixseven _ hb1 (lt_trans hb2 (by norm_num))
  · have hms : maskSize [m1, m2, m3, m4] = (n, 32) := by simp [maskSize, hsm]
    rw [hms]
    have hk : 32 - n ≤ 62 := by omega
    have hsp : goShl1Int64 ((n, 32).2 - (n, 32).1) = (2 : Int) ^ (32 - n) := by
      simp [goShl1Int64, hk]
    rw [hsp]
    have hpos : (0 : Int) < 2 ^ (32 - n) := by positivity
    rw [if_neg (not_le.mpr hpos)]
    have htn : ((2 : Int) ^ (32 - n)).toNat = 2 ^ (32 - n) := by
      rw [show ((2 : Int) ^ (32 - n)) = (((2 ^ (32 - n) : Nat) : Int)) by push_cast; ring]
      exact Int.toNat_natCast _
    rw [htn]
    apply gaiLoop_all_busy
    intro i
    apply isIPInUse_invalid
    apply ipTo4_natToBytes_sixseven
    · exact le_trans hb1 (Nat.le_add_left _ _)
    · have hr : randoms i % 2 ^ (32 - n) < 2 ^ (32 - n) :=
        Nat.mod_lt _ (Nat.pos_pow_of_pos _ (by norm_num))
      have hle : (2 : Nat) ^ (32 - n) ≤ 2 ^ 32 :=
        Nat.pow_le_pow_right (by norm_num) (by omega)
      have hrr : randoms i % 2 ^ (32 - n) < 4294967296 := by
        calc randoms i % 2 ^ (32 - n) < 2 ^ (32 - n) := hr
        _ ≤ 2 ^ 32 := hle
        _ = 4294967296 := by norm_num
      have hb2' : bytesToNat (ipTo16 [Nat.land a m1, Nat.land b m2, Nat.land c m3,
          Nat.land d m4]) < 281474976710656 := by
        calc bytesToNat _ < 256 ^ 6 := hb2
        _ = 281474976710656 := by norm_num
      have h7 : (256 : Nat) ^ 7 = 72057594037927936 := by norm_num
      rw [h7]
      omega

/-- `net.ParseCIDR("2001:db8::/32")`: 16-byte address and mask, 96 host
bits. -/
def cidrWide : IPNetM :=
  ⟨[32, 1, 13, 184, 0, 0, 0, 0, 0, 0, 0, 0, 0, 0, 0, 0],
   [255, 255, 255, 255, 0, 0, 0, 0, 0, 0, 0, 0, 0, 0, 0, 0]⟩

/-- C4: evaluated at the failing input `2001:db8::/32` — an IPv6 CIDR with
96 host bits — `GetAvailableIP` computes its host space as
`big.NewInt(1 << uint(128-32))`; the 64-bit shift yields 0 and
`crypto/rand.Int` panics on a non-positive bound, so the call neither
returns an address contained in the CIDR nor fails with the exhaustion
error (the two error outcomes are distinct constructors). -/
theorem getAvailableIP_wide_ipv6_panics :
    GetAvailableIPArp cidrWide (fun _ => 0) arpEnvAllOk =
      Except.error NetErr.randPanic ∧
    (NetErr.randPanic == NetErr.exhausted) = false :=
  ⟨rfl, by decide⟩

/-- C5: on every IPv4 `/32` network the host space is `1 << 0 = 1`, so each
of the 10 iterations probes the single candidate — the network base in its
stripped 6-byte encoding; `netIPToNetIPAddr` maps that malformed value to
the invalid zero `netip.Addr`, `arp.NewPacket` rejects it, and `IsIPInUse`
returns in-use on every error path, so all 10 probes miss and
`GetAvailableIP` always fails with the exhaustion error — it never returns
an address, for every random stream and every ARP environment. -/
theorem getAvailableIP_slash32_exhausted (a b c d : Nat) (randoms : Nat → Nat)
    (env : ArpEnv) :
    GetAvailableIPArp ⟨[a, b, c, d], [255, 255, 255, 255]⟩ randoms env =
      Except.error NetErr.exhausted :=
  getAvailableIPArp_ipv4_exhausted a b c d 255 255 255 255 (le_refl 255) (le_refl 255)
    (le_refl 255) (le_refl 255) randoms env

/-! ## `CreateNetwork` (network.go lines 72-129) (C10)

`config.IPNet` is a pointer; the pointed-to `net.IPNet` lives in an explicit
heap of cells, `config` and the returned `Network` holding cell references.
On the non-DHCP path the code executes `config.IPNet.IP = ip`, writing the
chosen address through the caller's pointer, and the returned `Network`
stores the very same pointer (`IPNet: config.IPNet`). -/

def heapGet : List (Nat × IPNetM) → Nat → IPNetM
  | [], _ => ⟨[], []⟩
  | (r, v) :: rest, q => if r = q then v else heapGet rest q

def heapSet : List (Nat × IPNetM) → Nat → IPNetM → List (Nat × IPNetM)
  | [], q, v => [(q, v)]
  | (r, w) :: rest, q, v => if r = q then (r, v) :: rest else (r, w) :: heapSet rest q v

theorem heapGet_heapSet_eq (heap : List (Nat × IPNetM)) (r : Nat) (v : IPNetM) :
    heapGet (heapSet heap r v) r = v := by
  induction heap with
  | nil => simp [heapSet, heapGet]
  | cons hd tl ih =>
    obtain ⟨q, w⟩ := hd
    by_cases h : q = r <;> simp [heapSet, heapGet, h, ih]

structure NetworkConfigM where
  name : String
  ipnetRef : Option Nat
  gateway : List Nat
  dns : List (List Nat)
  dhcp : Bool
  deriving DecidableEq

structure NetworkM where
  name : String
  ipnetRef : Nat
  gateway : List Nat
  dns : List (List Nat)
  dhcp : Bool
  deriving DecidableEq

/-- Gateway and DNS resolution plus construction of the `Network` value
(the tail of `CreateNetwork`); the heap is untouched here. -/
def createNetworkFinish (cfg : NetworkConfigM) (ref : Nat)
    (heap : List (Nat × IPNetM)) (gwRes dnsRes : Except NetErr (List Nat)) :
    Except NetErr NetworkM × List (Nat × IPNetM) :=
  match (if cfg.gateway ≠ [] then Except.ok cfg.gateway else gwRes) with
  | Except.error _ => (Except.error NetErr.gatewayFailed, heap)
  | Except.ok gw =>
    match (if cfg.dns ≠ [] then Except.ok cfg.dns
           else dnsRes.map (fun d => [d])) with
    | Except.error _ => (Except.error NetErr.dnsFailed, heap)
    | Except.ok dns =>
      (Except.ok ⟨cfg.name, ref, gw, dns, cfg.dhcp⟩, heap)

/-- `CreateNetwork(config, handler)`.  Oracles: `ifaceLookupOk` is whether
`InterfaceByName(config.Name)` succeeds (success means the interface already
exists), the DHCP oracles stand for the DHCPv6 server setup, `gwRes`/`dnsRes`
for `GetDefaultGateway`/`GetDefaultDNS` (a nil address is `[]`). -/
def CreateNetwork (config : Option NetworkConfigM) (heap : List (Nat × IPNetM))
    (ifaceLookupOk dhcpNewOk dhcpServeOk : Bool)
    (randoms : Nat → Nat) (inUse : List Nat → Bool)
    (gwRes dnsRes : Except NetErr (List Nat)) :
    Except NetErr NetworkM × List (Nat × IPNetM) :=
  match config with
  | none => (Except.error NetErr.invalidConfig, heap)
  | some cfg =>
    match cfg.ipnetRef with
    | none => (Except.error NetErr.invalidConfig, heap)
    | some ref =>
      if ifaceLookupOk = true then (Except.error NetErr.alreadyExists, heap)
      else if cfg.dhcp = true then
        if dhcpNewOk = false then (Except.error NetErr.dhcpCreateFailed, heap)
        else if dhcpServeOk = false then (Except.error NetErr.dhcpServeFailed, heap)
        else createNetworkFinish cfg ref heap gwRes dnsRes
      else
        match GetAvailableIP (heapGet heap ref) randoms inUse with
        | Except.error _ => (Except.error NetErr.assignFailed, heap)
        | Except.ok ip =>
          -- config.IPNet.IP = ip : write through the caller's pointer
          createNetworkFinish cfg ref
            (heapSet heap ref ⟨ip, (heapGet heap ref).mask⟩) gwRes dnsRes

theorem createNetworkFinish_heap (cfg : NetworkConfigM) (ref : Nat)
    (heap : List (Nat × IPNetM)) (gwRes dnsRes : Except NetErr (List Nat)) :
    (createNetworkFinish cfg ref heap gwRes dnsRes).2 = heap := by
  unfold createNetworkFinish
  cases hgw : (if cfg.gateway ≠ [] then Except.ok cfg.gateway else gwRes) with
  | error e => rfl
  | ok gw =>
    cases hdns : (if cfg.dns ≠ [] then Except.ok cfg.dns
                  else dnsRes.map (fun d => [d])) with
    | error e => rfl
    | ok dns => rfl

theorem createNetworkFinish_ok (cfg : NetworkConfigM) (ref : Nat)
    (heap : List (Nat × IPNetM)) (gwRes dnsRes : Except NetErr (List Nat))
    (netw : NetworkM)
    (h : (createNetworkFinish cfg ref heap gwRes dnsRes).1 = Except.ok netw) :
    netw.ipnetRef = ref := by
  unfold createNetworkFinish at h
  cases hgw : (if cfg.gateway ≠ [] then Except.ok cfg.gateway else gwRes) with
  | error e => simp [hgw] at h
  | ok gw =>
    cases hdns : (if cfg.dns ≠ [] then Except.ok cfg.dns
                  else dnsRes.map (fun d => [d])) with
    | error e => simp [hgw, hdns] at h
    | ok dns =>
      simp only [hgw, hdns] at h
      cases h
      rfl

/-- C10: whenever the non-DHCP path of `CreateNetwork` succeeds, the address
chosen by `GetAvailableIP` has been written through the caller's `IPNet`
pointer (the cell now holds the chosen address with the original mask), and
the returned `Network` aliases that same pointer; the caller's config is
left unchanged only if the chosen address happens to equal the old one. -/
theorem createNetwork_mutates_and_aliases
    (cfg : NetworkConfigM) (heap : List (Nat × IPNetM)) (ref : Nat)
    (ifaceLookupOk dhcpNewOk dhcpServeOk : Bool) (randoms : Nat → Nat)
    (inUse : List Nat → Bool) (gwRes dnsRes : Except NetErr (List Nat))
    (netw : NetworkM) (heap2 : List (Nat × IPNetM))
    (href : cfg.ipnetRef = some ref) (hdhcp : cfg.dhcp = false)
    (hok : CreateNetwork (some cfg) heap ifaceLookupOk dhcpNewOk dhcpServeOk
        randoms inUse gwRes dnsRes = (Except.ok netw, heap2)) :
    netw.ipnetRef = ref ∧
    ∃ ip, GetAvailableIP (heapGet heap ref) randoms inUse = Except.ok ip ∧
      heapGet heap2 ref = ⟨ip, (heapGet heap ref).mask⟩ := by
  unfold CreateNetwork at hok
  simp only [href, hdhcp] at hok
  cases hif : ifaceLookupOk with
  | true => simp [hif] at hok
  | false =>
    simp only [hif, Bool.false_eq_true, if_false, if_neg] at hok
    cases hgai : GetAvailableIP (heapGet heap ref) randoms inUse with
    | error e => simp [hgai] at hok
    | ok ip =>
      simp only [hgai] at hok
      have hpair : (createNetworkFinish cfg ref
          (heapSet heap ref ⟨ip, (heapGet heap ref).mask⟩) gwRes dnsRes) =
          (Except.ok netw, heap2) := hok
      have h2 : heap2 = heapSet heap ref ⟨ip, (heapGet heap ref).mask⟩ := by
        have hh := createNetworkFinish_heap cfg ref
          (heapSet heap ref ⟨ip, (heapGet heap ref).mask⟩) gwRes dnsRes
        rw [hpair] at hh
        simpa using hh
      have h1 : netw.ipnetRef = ref := by
        apply createNetworkFinish_ok cfg ref
          (heapSet heap ref ⟨ip, (heapGet heap ref).mask⟩) gwRes dnsRes
        rw [hpair]
      refine ⟨h1, ip, rfl, ?_⟩
      rw [h2, heapGet_heapSet_eq]

def c10cfg : NetworkConfigM := ⟨"br1", some 0, [], [], false⟩

/-- Witness for C10: a concrete successful create on `192.168.0.0/24`
overwrites the pointed-to cell with the chosen address and the returned
network holds the same cell reference. -/
theorem createNetwork_mutates_and_aliases_witness :
    c10cfg.ipnetRef = some 0 ∧ c10cfg.dhcp = false ∧
    ((⟨"br1", 0, [10, 0, 0, 1], [[8, 8, 8, 8]], false⟩ : NetworkM).ipnetRef = 0 ∧
     ∃ ip, GetAvailableIP (heapGet [(0, cidr24)] 0) (fun _ => 5) (fun _ => false) =
        Except.ok ip ∧
      heapGet [(0, (⟨[255, 255, 192, 168, 0, 5], [255, 255, 255, 0]⟩ : IPNetM))] 0 =
        ⟨ip, (heapGet [(0, cidr24)] 0).mask⟩) :=
  ⟨rfl, rfl,
   createNetwork_mutates_and_aliases c10cfg [(0, cidr24)] 0 false true true
     (fun _ => 5) (fun _ => false) (Except.ok [10, 0, 0, 1]) (Except.ok [8, 8, 8, 8])
     ⟨"br1", 0, [10, 0, 0, 1], [[8, 8, 8, 8]], false⟩
     [(0, ⟨[255, 255, 192, 168, 0, 5], [255, 255, 255, 0]⟩)] rfl rfl rfl⟩

/-! ## The `spocker` executable `main`/`run` (cmd/spocker/main.go) (C9)

The flag values arrive already split (the positional arguments in `args`,
each named flag as a string).  `strconv.Atoi` is modelled faithfully;
`net.ParseCIDR` is an oracle (`parseCIDR`), as is the effective uid and the
outcome of `container.Run`.  The outcome records the exit code, everything
printed on stdout and stderr, and whether `container.Run` was invoked. -/

def parseDigitsAux : List Char → Nat → Option Nat
  | [], acc => some acc
  | c :: rest, acc =>
    if c.isDigit then parseDigitsAux rest (acc * 10 + (c.toNat - 48)) else none

def parseDigits : List Char → Option Nat
  | [] => none
  | cs => parseDigitsAux cs 0

/-- `strconv.Atoi`: optional sign, decimal digits, 64-bit range. -/
def goAtoi (s : String) : Option Int :=
  match s.data with
  | '+' :: rest =>
    (parseDigits rest).bind
      (fun n => if n ≤ 9223372036854775807 then some (Int.ofNat n) else none)
  | '-' :: rest =>
    (parseDigits rest).bind
      (fun n => if n ≤ 9223372036854775808 then some (-(Int.ofNat n)) else none)
  | cs =>
    (parseDigits cs).bind
      (fun n => if n ≤ 9223372036854775807 then some (Int.ofNat n) else none)

structure ProcOutcome where
  exitCode : Nat
  stdoutLines : List String
  stderrLines : List String
  childRunInvoked : Bool
  deriving DecidableEq

def usageLine : String := "Usage: spocker COMMAND"

/-- The `run` helper of main.go (lines 168-186): root check, child command
construction, `container.Run`, error report to stderr with exit 1. -/
def spockerRun (restArgs : List String) (euid : Nat) (runErr : Option String) :
    ProcOutcome :=
  if euid ≠ 0 then ⟨1, [], ["spocker: need root privileges"], false⟩
  else
    match restArgs with
    | [] => ⟨2, [], ["panic: runtime error: index out of range"], false⟩
    | _ :: _ =>
      match runErr with
      | some e => ⟨1, [], ["spocker: " ++ e], true⟩
      | none => ⟨0, [], [], true⟩

/-- `main` (lines 90-166): flag decoding for the `run` subcommand.  The
crucial source detail is the CIDR branch: `net.ParseCIDR` failure prints
`Invalid CIDR: <err>` with `fmt.Println` (stdout, not stderr) and then
plainly `return`s from `main`, so the process exits with status 0. -/
def spockerMain (args : List String)
    (memoryLimitFlag cpuSharesFlag blkioWeightFlag : String)
    (networkIPCIDRFlag : String)
    (parseCIDR : String → Option IPNetM)
    (euid : Nat) (runErr : Option String) : ProcOutcome :=
  match args with
  | [] => ⟨1, [], [usageLine], false⟩
  | a :: rest =>
    if a = "run" then
      match goAtoi memoryLimitFlag with
      | none => ⟨1, [], ["spocker: invalid memory limit: " ++ memoryLimitFlag], false⟩
      | some _ =>
        match goAtoi cpuSharesFlag with
        | none => ⟨1, [], ["spocker: invalid CPU shares: " ++ cpuSharesFlag], false⟩
        | some _ =>
          match goAtoi blkioWeightFlag with
          | none =>
            ⟨1, [], ["spocker: invalid block I/O weight: " ++ blkioWeightFlag], false⟩
          | some _ =>
            match parseCIDR networkIPCIDRFlag with
            | none =>
              -- fmt.Println("Invalid CIDR:", err); return
              ⟨0, ["Invalid CIDR: invalid CIDR address: " ++ networkIPCIDRFlag], [], false⟩
            | some _ => spockerRun rest euid runErr
    else ⟨1, [], [usageLine], false⟩

/-- C9: the `run` invocation
`spocker run --memory-limit 100000000 --cpu-shares 512 --blkio-weight 100
--network-ip-cidr notacidr /bin/true` (run as root, `net.ParseCIDR` failing
on the slash-less string) prints its diagnostic to *stdout*, writes nothing
to stderr, never invokes `container.Run` (no child runs), and exits with
code 0 — not 1. -/
theorem main_invalid_cidr_exits_zero :
    spockerMain ["run", "/bin/true"] "100000000" "512" "100" "notacidr"
      (fun _ => none) 0 none =
      ⟨0, ["Invalid CIDR: invalid CIDR address: notacidr"], [], false⟩ := rfl
